import Mathlib

/-!
Verification of the Zippify signal-processing core against its specification.

The embedding below translates the repository's Rust sources:

* `src/process.rs` — the per-block processing pipeline (`process`,
  `remove_silence`, `mix`) acting on stereo sample buffers; samples are
  modelled as exact rationals (`ℚ`), standing for the program's `f32`
  values with exact arithmetic.
* `src/param.rs` — the parameter store (`EffectParams`, the
  `PluginParameters` implementation); its dB conversions use real-number
  exponentials, so that part of the model lives in `ℝ`.
* `src/lib.rs` — the older inline plugin; of it we model the
  input-buffer selection logic at the top of `Zippify::process`.

Rust `f32::clamp(min, max)` panics when `min > max`; `process` is
therefore modelled as returning `Option`, with `none` for a panicking
run (the other panic source being an out-of-bounds index write when an
output channel is shorter than its input channel).
-/

/-! ## Pipeline data model (src/process.rs) -/

/-- Parameter snapshot, generic in the scalar type: `src/param.rs` stores
the four fields in `AtomicFloat` cells; the pipeline reads each once per
use. -/
structure EffectParams (α : Type) where
  clamp_threshold : α
  lose_precision : α
  mix : α
  gain : α
deriving DecidableEq, Repr

/-- `src/process.rs` line 4: `const SILENT_THRESHOLD_DB: f32 = 0.015_848_933`. -/
def SILENT_THRESHOLD_DB : ℚ := 15848933 / 1000000000

/-- `src/process.rs` line 5: `const SILENT_THRESHOLD_COUNT: i32 = 32` (the
counter starts at 0 and only increments, so we carry it as a natural). -/
def SILENT_THRESHOLD_COUNT : ℕ := 32

/-- One channel of `remove_silence` (`src/process.rs` lines 29-36): walk the
buffer keeping a counter of below-threshold samples; once the counter
exceeds the threshold count, below-threshold samples are zeroed.  The
counter is never reset. -/
def removeSilenceGo (counter : ℕ) : List ℚ → List ℚ
  | [] => []
  | x :: rest =>
    if x < SILENT_THRESHOLD_DB then
      (if SILENT_THRESHOLD_COUNT < counter + 1 then (0 : ℚ) else x)
        :: removeSilenceGo (counter + 1) rest
    else
      x :: removeSilenceGo counter rest

/-- A channel run of the silence gate, counter starting at 0
(`let mut silence_counter_l: i32 = 0;`). -/
def removeSilenceChannel (buf : List ℚ) : List ℚ := removeSilenceGo 0 buf

/-- `remove_silence` (`src/process.rs` lines 23-47): both channels gated
independently. -/
def remove_silence : List ℚ × List ℚ → List ℚ × List ℚ
  | (out_buf_l, out_buf_r) => (removeSilenceChannel out_buf_l, removeSilenceChannel out_buf_r)

/-- Rust `x.clamp(lo, hi)` for `lo ≤ hi`: `min hi (max lo x)`
(`in_buf_l_sample.clamp(-clamp_range, clamp_range)`, `src/process.rs`
lines 66-73). -/
def clampSample (x lo hi : ℚ) : ℚ := min hi (max lo x)

/-- The clamp stage writes `out[i] = in[i].clamp(-t, t)` for every index of
the input channel; entries of the output buffer past the input's length
keep their silence-gated values. -/
def clampChannel (inb outb : List ℚ) (t : ℚ) : List ℚ :=
  (inb.map fun x => clampSample x (-t) t) ++ outb.drop inb.length

/-- The gain stage (`src/process.rs` lines 76-82) multiplies every sample of
the output buffer by the gain parameter. -/
def gainChannel (g : ℚ) (buf : List ℚ) : List ℚ := buf.map fun x => x * g

/-- Truncation toward zero, the rounding of Rust's float-to-integer `as`
cast. -/
def truncQ (q : ℚ) : ℤ := if 0 ≤ q then ⌊q⌋ else ⌈q⌉

/-- Rust `as i8` on a float value: truncate toward zero and saturate to the
`i8` range `[-128, 127]` (Rust float-to-int casts saturate; a NaN maps to
0, which cannot arise over `ℚ`). -/
def i8OfQ (q : ℚ) : ℤ := max (-128) (min 127 (truncQ q))

/-- One sample of the precision-reduction stage (`src/process.rs` lines
87-88): `let sample = (x * 0x0f as f32) as i8; x = f32::from(sample) / 0x0f as f32`. -/
def losePrecisionSample (x : ℚ) : ℚ := ((i8OfQ (x * 15) : ℤ) : ℚ) / 15

/-- The precision-reduction stage (`src/process.rs` lines 85-95), applied
only when `lose_precision > 0.5`. -/
def losePrecisionChannel (lose_precision : ℚ) (buf : List ℚ) : List ℚ :=
  if 1 / 2 < lose_precision then buf.map losePrecisionSample else buf

/-- One sample of the mix stage (`src/process.rs` line 14):
`out = (out * mix) + ((1 - mix) * in)`. -/
def mixSample (o i m : ℚ) : ℚ := o * m + (1 - m) * i

/-- One channel of `mix`: `out.iter_mut().zip(in.iter())` pairs entries up
to the shorter length; output entries beyond the input's length are left
unchanged. -/
def mixChannel (inb outb : List ℚ) (m : ℚ) : List ℚ :=
  (List.zipWith (fun o i => mixSample o i m) outb inb) ++ outb.drop inb.length

/-- `mix` (`src/process.rs` lines 11-21): both channels blended
independently. -/
def mix : List ℚ × List ℚ → List ℚ × List ℚ → ℚ → List ℚ × List ℚ
  | (in_l, in_r), (out_l, out_r), m => (mixChannel in_l out_l m, mixChannel in_r out_r m)

/-- `process` (`src/process.rs` lines 49-99).  Stage order: silence gate on
the output buffers' pre-existing contents, then clamp (overwriting the
output from the input), gain, precision reduction, mix.  `none` models a
panic: Rust `clamp` panics when `-clamp_range > clamp_range` (i.e. the
threshold is negative) as soon as one sample is clamped, and the clamp
loops index out of bounds when an output channel is shorter than its
input channel. -/
def process (in_buf_l in_buf_r out_buf_l out_buf_r : List ℚ)
    (params : EffectParams ℚ) : Option (List ℚ × List ℚ) :=
  if params.clamp_threshold < 0 ∧ (in_buf_l ≠ [] ∨ in_buf_r ≠ []) then none
  else if out_buf_l.length < in_buf_l.length ∨ out_buf_r.length < in_buf_r.length then none
  else
    let s := remove_silence (out_buf_l, out_buf_r)
    let cl := clampChannel in_buf_l s.1 params.clamp_threshold
    let cr := clampChannel in_buf_r s.2 params.clamp_threshold
    let gl := gainChannel params.gain cl
    let gr := gainChannel params.gain cr
    let pl := losePrecisionChannel params.lose_precision gl
    let pr := losePrecisionChannel params.lose_precision gr
    some (mix (in_buf_l, in_buf_r) (pl, pr) params.mix)

/-! ## Input-buffer selection (src/lib.rs, `Zippify::process`) -/

/-- Input selection at the top of `Zippify::process` (`src/lib.rs` lines
478-497): the candidate input starts as a copy of the output buffers; if
any sample of the *first* nominal input channel is nonzero, the nominal
input buffers are used instead. -/
def selectInput (in_l in_r out_l out_r : List ℚ) : List ℚ × List ℚ :=
  if in_l.any fun x => decide (x ≠ 0) then (in_l, in_r) else (out_l, out_r)

/-- Formalisation of claim C5's words: use the output buffers' contents
exactly when the nominal input buffer (both channels) is entirely zero. -/
def selectInputSpec (in_l in_r out_l out_r : List ℚ) : List ℚ × List ℚ :=
  if (in_l ++ in_r).all fun x => decide (x = 0) then (out_l, out_r) else (in_l, in_r)

/-! ## Parameter store (src/param.rs)

The dB conversions go through `powf`/`log10`, modelled with real-number
power and logarithm, so this part of the embedding lives in `ℝ`. -/

/-- `to_linear` (`src/util.rs` lines 3-5): `10.0_f32.powf(db / 20.0)`. -/
noncomputable def to_linear (db : ℝ) : ℝ := (10 : ℝ) ^ (db / 20)

/-- `to_db` (`src/util.rs` lines 7-9): `20.0 * linear.log10()`. -/
noncomputable def to_db (linear : ℝ) : ℝ := 20 * (Real.log linear / Real.log 10)

/-- `PARAM_NUM` (`src/param.rs` line 19). -/
def PARAM_NUM : ℤ := 4

/-- `get_parameter` (`src/param.rs` lines 34-45). -/
noncomputable def get_parameter (p : EffectParams ℝ) (index : ℤ) : ℝ :=
  if index = 0 then p.clamp_threshold
  else if index = 1 then p.lose_precision
  else if index = 2 then p.mix
  else if index = 3 then (p.gain - 1) / to_linear 24
  else 0

/-- `set_parameter` (`src/param.rs` lines 48-59); the store's cells are
modelled functionally, so the setter returns the updated store. -/
noncomputable def set_parameter (p : EffectParams ℝ) (index : ℤ) (val : ℝ) : EffectParams ℝ :=
  if index = 0 then { p with clamp_threshold := val }
  else if index = 1 then { p with lose_precision := val }
  else if index = 2 then { p with mix := val }
  else if index = 3 then { p with gain := val * to_linear 24 + 1 }
  else p

/-- `get_parameter_text` (`src/param.rs` lines 62-70).  Rust's numeric
string formatting (`format!("{:.2}", _)`) is host-library behaviour and
is taken as a parameter `fmt`. -/
noncomputable def get_parameter_text (fmt : ℝ → String) (p : EffectParams ℝ) (index : ℤ) :
    String :=
  if index = 0 then fmt (to_db p.clamp_threshold) ++ " dB"
  else if index = 1 then fmt p.lose_precision
  else if index = 2 then fmt p.mix
  else if index = 3 then fmt (to_db p.gain) ++ " dB"
  else ""

/-- `get_parameter_name` (`src/param.rs` lines 73-82). -/
def get_parameter_name (index : ℤ) : String :=
  if index = 0 then "Chocolate!"
  else if index = 1 then "8-bitify"
  else if index = 2 then "Mix"
  else if index = 3 then "Gain"
  else ""

/-- `Default for EffectParams` (`src/param.rs` lines 21-30). -/
noncomputable def defaultParams : EffectParams ℝ :=
  ⟨to_linear (-12), 1, 1, to_linear 0⟩

/-! ## Auxiliary definitions used to state claims -/

/-- The silence-gate comparison as a Boolean predicate (used to count
below-threshold samples in prefixes of a buffer). -/
def belowThreshold (x : ℚ) : Bool := decide (x < SILENT_THRESHOLD_DB)

/-- Two's-complement wraparound to the `i8` range, as claim C2 words the
out-of-range behaviour of the cast (the code saturates instead). -/
def wrapI8 (n : ℤ) : ℤ := (n + 128) % 256 - 128

/-! ## Helper lemmas -/

lemma to_linear_pos (db : ℝ) : 0 < to_linear db :=
  Real.rpow_pos_of_pos (by norm_num) _

/-- The silence gate with counter `c` zeroes exactly the below-threshold
samples whose prefix (counting from the start of the buffer, plus `c`)
holds more than `SILENT_THRESHOLD_COUNT` below-threshold samples. -/
lemma removeSilenceGo_eq (buf : List ℚ) : ∀ c : ℕ,
    removeSilenceGo c buf = buf.mapIdx fun i x =>
      if x < SILENT_THRESHOLD_DB ∧
          SILENT_THRESHOLD_COUNT < c + (buf.take (i + 1)).countP belowThreshold
      then 0 else x := by
  induction buf with
  | nil => intro c; simp [removeSilenceGo]
  | cons x rest ih =>
    intro c
    by_cases hx : x < SILENT_THRESHOLD_DB
    · rw [removeSilenceGo, if_pos hx, ih (c + 1), List.mapIdx_cons]
      congr 1
      · simp [belowThreshold, hx, List.countP_cons]
      · congr 1
        funext i y
        have hc : ((x :: rest).take (i + 1 + 1)).countP belowThreshold
            = (rest.take (i + 1)).countP belowThreshold + 1 := by
          simp [List.take_succ_cons, List.countP_cons, belowThreshold, hx]
        rw [hc]
        have harith : c + ((rest.take (i + 1)).countP belowThreshold + 1)
            = c + 1 + (rest.take (i + 1)).countP belowThreshold := by omega
        rw [harith]
    · rw [removeSilenceGo, if_neg hx, ih c, List.mapIdx_cons]
      congr 1
      · simp [belowThreshold, hx, List.countP_cons]
      · congr 1
        funext i y
        have hc : ((x :: rest).take (i + 1 + 1)).countP belowThreshold
            = (rest.take (i + 1)).countP belowThreshold := by
          simp [List.take_succ_cons, List.countP_cons, belowThreshold, hx]
        rw [hc]

/-! ## Claim theorems -/

/-- C8 (confirmed): for every sample `s` and threshold `t > 0`, the clamp
stage satisfies `|clamp(s, -t, t)| ≤ t`, and `clamp(s, -t, t) = s`
whenever `|s| ≤ t`. -/
theorem clamp_stage_bounds (s t : ℚ) (ht : 0 < t) :
    |clampSample s (-t) t| ≤ t ∧ (|s| ≤ t → clampSample s (-t) t = s) := by
  constructor
  · rw [abs_le, clampSample]
    exact ⟨le_min (by linarith) (le_max_left _ _), min_le_left _ _⟩
  · intro hs
    rw [abs_le] at hs
    rw [clampSample, max_eq_right hs.1, min_eq_right hs.2]

theorem clamp_stage_bounds_witness :
    |clampSample 0 (-1) 1| ≤ 1 ∧ clampSample 0 (-1) 1 = 0 :=
  ⟨(clamp_stage_bounds 0 1 one_pos).1, (clamp_stage_bounds 0 1 one_pos).2 (by simp)⟩

/-- C9 (confirmed): the mix stage with `mix_amount = 1` outputs exactly the
wet sample, and with `mix_amount = 0` outputs exactly the original input
sample. -/
theorem mix_extremes (o i : ℚ) : mixSample o i 1 = o ∧ mixSample o i 0 = i := by
  constructor <;> simp [mixSample]

/-- C2 (counterexample): at sample `x = 10`, the stage's value `127/15`
(saturating cast) differs from the two's-complement-wraparound value
`-106/15` the claim prescribes. -/
theorem losePrecision_wraparound_counterexample :
    losePrecisionChannel 1 [(10 : ℚ)] = [(127 : ℚ) / 15] ∧
    ((wrapI8 (truncQ ((10 : ℚ) * 15)) : ℤ) : ℚ) / 15 = -106 / 15 ∧
    ((127 : ℚ) / 15) ≠ -106 / 15 := by
  refine ⟨?_, ?_, by norm_num⟩
  · norm_num [losePrecisionChannel, losePrecisionSample, i8OfQ, truncQ]
  · norm_num [wrapI8, truncQ]

/-- C2 (corrected): the precision-reduction stage is the identity when
`lose_precision ≤ 0.5`; when `lose_precision > 0.5` it maps every sample
`x` to the signed 8-bit integer obtained by truncating `x * 15` toward
zero — with saturation to `[-128, 127]` (Rust float-to-int casts
saturate; they do not wrap) — divided back by 15, so every sample the
stage outputs is `n / 15` for a signed 8-bit integer `n`. -/
theorem losePrecision_amended (lp : ℚ) (buf : List ℚ) (x : ℚ) :
    (lp ≤ 1 / 2 → losePrecisionChannel lp buf = buf) ∧
    (1 / 2 < lp → losePrecisionChannel lp buf = buf.map losePrecisionSample) ∧
    (∃ n : ℤ, -128 ≤ n ∧ n ≤ 127 ∧ losePrecisionSample x = (n : ℚ) / 15) := by
  refine ⟨fun h => ?_, fun h => ?_, ?_⟩
  · rw [losePrecisionChannel, if_neg (not_lt.mpr h)]
  · rw [losePrecisionChannel, if_pos h]
  · exact ⟨i8OfQ (x * 15), le_max_left _ _, max_le (by norm_num) (min_le_left _ _), rfl⟩

theorem losePrecision_amended_witness :
    losePrecisionChannel 0 [(3 : ℚ)] = [(3 : ℚ)] ∧
    losePrecisionChannel 1 [(10 : ℚ)] = [(10 : ℚ)].map losePrecisionSample :=
  ⟨(losePrecision_amended 0 [(3 : ℚ)] 0).1 one_half_pos.le,
   (losePrecision_amended 1 [(10 : ℚ)] 0).2.1 one_half_lt_one⟩

/-- C5 (counterexample): with nominal input `([0], [5])` — not entirely
zero, its right channel holds `5` — and pre-existing output `([7], [8])`,
the code still uses the output buffers' contents, because it only
inspects the first input channel; the claim's selector picks the nominal
input. -/
theorem selectInput_counterexample :
    selectInput [0] [5] [7] [8] = ([7], [8]) ∧
    selectInputSpec [0] [5] [7] [8] = ([0], [5]) ∧
    (([7], [8]) : List ℚ × List ℚ) ≠ ([0], [5]) := by
  refine ⟨?_, ?_, by norm_num⟩
  · norm_num [selectInput]
  · norm_num [selectInputSpec]

/-- C5 (corrected): `Zippify::process` checks whether the *left (first)
channel* of the nominal input buffer is entirely zero; if so it uses the
output buffers' pre-existing contents as the true input, otherwise it
uses the nominal input buffers. -/
theorem selectInput_amended (in_l in_r out_l out_r : List ℚ) :
    ((∀ x ∈ in_l, x = 0) → selectInput in_l in_r out_l out_r = (out_l, out_r)) ∧
    ((∃ x ∈ in_l, x ≠ 0) → selectInput in_l in_r out_l out_r = (in_l, in_r)) := by
  constructor
  · intro h
    rw [selectInput, if_neg]
    simp only [List.any_eq_true, decide_eq_true_eq, not_exists, not_and, not_not]
    exact h
  · rintro ⟨x, hx, hne⟩
    rw [selectInput, if_pos]
    simp only [List.any_eq_true, decide_eq_true_eq]
    exact ⟨x, hx, hne⟩

theorem selectInput_amended_witness :
    selectInput [(0 : ℚ)] [(0 : ℚ)] [(7 : ℚ)] [(8 : ℚ)] = ([(7 : ℚ)], [(8 : ℚ)]) ∧
    selectInput [(1 : ℚ)] [(2 : ℚ)] [(3 : ℚ)] [(4 : ℚ)] = ([(1 : ℚ)], [(2 : ℚ)]) :=
  ⟨(selectInput_amended [0] [0] [7] [8]).1 (by simp),
   (selectInput_amended [1] [2] [3] [4]).2 ⟨1, by simp, one_ne_zero⟩⟩

/-- C6 (counterexample): a negative `clamp_threshold` — a value host
automation can physically deliver through `set_parameter`, outside the
UI-enforced range — makes `process` panic: Rust `f32::clamp` panics when
`min > max`, and here `-clamp_range > clamp_range`. -/
theorem process_negative_threshold_panics :
    process [(0 : ℚ)] [] [(0 : ℚ)] [] ⟨-1, 0, 1, 1⟩ = none := by
  norm_num [process]

/-- C6 (corrected): for every finite input block whose output channels are
at least as long as the input channels, `process` with any
`clamp_threshold ≥ 0` — in particular 0 and every value in the host's
normalized `[0, 1]` range below the UI minimum — does not panic; over the
exact rational semantics every produced sample is a (finite) rational. -/
theorem process_no_panic_amended (in_l in_r out_l out_r : List ℚ) (p : EffectParams ℚ)
    (ht : 0 ≤ p.clamp_threshold)
    (hl : in_l.length ≤ out_l.length) (hr : in_r.length ≤ out_r.length) :
    (process in_l in_r out_l out_r p).isSome = true := by
  have h1 : ¬(p.clamp_threshold < 0 ∧ (in_l ≠ [] ∨ in_r ≠ [])) := by
    rintro ⟨hneg, -⟩
    exact absurd ht (not_le.mpr hneg)
  have h2 : ¬(out_l.length < in_l.length ∨ out_r.length < in_r.length) := by omega
  simp [process, h1, h2]

theorem process_no_panic_witness :
    (process [(1 : ℚ)] [(1 : ℚ)] [(1 : ℚ)] [(1 : ℚ)] ⟨0, 0, 1, 1⟩).isSome = true :=
  process_no_panic_amended [1] [1] [1] [1] ⟨0, 0, 1, 1⟩ le_rfl (by decide) (by decide)

/-- C7 (confirmed): for every index outside `0..3`, `get_parameter`
returns 0, `get_parameter_text` and `get_parameter_name` return the empty
string, and `set_parameter` leaves the stored parameters unchanged; all
four calls are total (no failure signal). -/
theorem out_of_range_index_neutral (i : ℤ) (h : i < 0 ∨ 3 < i)
    (p : EffectParams ℝ) (val : ℝ) (fmt : ℝ → String) :
    get_parameter p i = 0 ∧ set_parameter p i val = p ∧
    get_parameter_text fmt p i = "" ∧ get_parameter_name i = "" := by
  have h0 : i ≠ 0 := by omega
  have h1 : i ≠ 1 := by omega
  have h2 : i ≠ 2 := by omega
  have h3 : i ≠ 3 := by omega
  simp [get_parameter, set_parameter, get_parameter_text, get_parameter_name, h0, h1, h2, h3]

theorem out_of_range_index_neutral_witness :
    get_parameter ⟨1, 1, 1, 1⟩ 7 = 0 ∧ set_parameter ⟨1, 1, 1, 1⟩ 7 0 = ⟨1, 1, 1, 1⟩ ∧
    get_parameter_text (fun _ => "") ⟨1, 1, 1, 1⟩ 7 = "" ∧ get_parameter_name 7 = "" :=
  out_of_range_index_neutral 7 (Or.inr (by decide)) ⟨1, 1, 1, 1⟩ 0 (fun _ => "")

/-- C3 (counterexample): in the buffer `[0.001 × 33, 1, 0.001 × 32]` the
trailing run of exactly 32 consecutive below-threshold samples does not
stay untouched: its first sample (index 34) is zeroed, because the
run-length counter accumulated the 33 earlier below-threshold samples and
never resets. -/
theorem removeSilence_exact32_counterexample :
    (removeSilenceChannel
        (List.replicate 33 (1 / 1000 : ℚ) ++ [1] ++ List.replicate 32 (1 / 1000 : ℚ)))[34]?
      = some 0 ∧
    (List.replicate 33 (1 / 1000 : ℚ) ++ [1] ++ List.replicate 32 (1 / 1000 : ℚ))[34]?
      = some (1 / 1000) ∧
    ((1 : ℚ) / 1000) ≠ 0 := by
  refine ⟨?_, ?_, by norm_num⟩
  · norm_num [removeSilenceChannel, removeSilenceGo, SILENT_THRESHOLD_DB,
      SILENT_THRESHOLD_COUNT, List.replicate]
  · norm_num [List.replicate]

/-- C3 (corrected): the silence gate zeroes a sample exactly when it is
below the threshold and the count of below-threshold samples in the
buffer up to and including it exceeds 32 — the counter is cumulative over
the whole channel buffer and never resets at a loud sample.  Hence a run
of at least 33 consecutive below-threshold samples is zeroed from its
index 32 onward, samples at or above the threshold are never modified,
and a run of exactly 32 below-threshold samples stays untouched only when
no earlier sample of the buffer is below the threshold. -/
theorem removeSilence_amended (buf : List ℚ) :
    removeSilenceChannel buf = buf.mapIdx fun i x =>
      if x < SILENT_THRESHOLD_DB ∧
          SILENT_THRESHOLD_COUNT < (buf.take (i + 1)).countP belowThreshold
      then 0 else x := by
  rw [removeSilenceChannel, removeSilenceGo_eq buf 0]
  simp

/-- C1 (counterexample): in the end-to-end scenario (left input
`[0.5, 0.5, -0.5]` then 40 samples of `0.001`, `clamp_threshold = 0.251`,
`gain = 1`, `lose_precision = 0`, `mix = 1`, zeroed output buffers) the
33rd sample of the trailing quiet run — global index 35, which the claim
says is zero — is `0.001` in the block's final left output. -/
theorem process_endToEnd_counterexample :
    ((process ([1 / 2, 1 / 2, -1 / 2] ++ List.replicate 40 (1 / 1000 : ℚ))
          (List.replicate 43 (0 : ℚ)) (List.replicate 43 (0 : ℚ)) (List.replicate 43 (0 : ℚ))
          ⟨251 / 1000, 0, 1, 1⟩).map fun out => out.1[35]?)
      = some (some (1 / 1000)) ∧
    ((1 : ℚ) / 1000) ≠ 0 := by
  refine ⟨?_, by norm_num⟩
  norm_num [process, remove_silence, removeSilenceChannel, removeSilenceGo, clampChannel,
    clampSample, gainChannel, losePrecisionChannel, mixChannel, mixSample,
    SILENT_THRESHOLD_DB, SILENT_THRESHOLD_COUNT, mix, List.replicate]

/-- C1 (corrected): the end-to-end scenario produces left output
`[0.251, 0.251, -0.251]` followed by the 40 quiet samples *unchanged*:
the silence gate only zeroes the output buffer's pre-existing contents,
which the clamp stage then overwrites from the input, so the gate's
zeroing is not visible in the block's final output. -/
theorem process_endToEnd_amended :
    process ([1 / 2, 1 / 2, -1 / 2] ++ List.replicate 40 (1 / 1000 : ℚ))
        (List.replicate 43 (0 : ℚ)) (List.replicate 43 (0 : ℚ)) (List.replicate 43 (0 : ℚ))
        ⟨251 / 1000, 0, 1, 1⟩
      = some ([251 / 1000, 251 / 1000, -251 / 1000] ++ List.replicate 40 (1 / 1000 : ℚ),
          List.replicate 43 (0 : ℚ)) := by
  norm_num [process, remove_silence, removeSilenceChannel, removeSilenceGo, clampChannel,
    clampSample, gainChannel, losePrecisionChannel, mixChannel, mixSample,
    SILENT_THRESHOLD_DB, SILENT_THRESHOLD_COUNT, mix, List.replicate]

/-- C4 (confirmed): for every parameter index in `0..3` and every
normalized value `x ∈ [0, 1]`, `get_parameter` after
`set_parameter(i, x)` returns exactly `x`; for index 3 the getter's
`(gain - 1) / linear(24 dB)` is the exact inverse of the setter's
`gain = x · linear(24 dB) + 1` (exact in the model's real arithmetic). -/
theorem get_set_roundtrip (p : EffectParams ℝ) (i : ℤ) (x : ℝ)
    (h0 : 0 ≤ i) (h3 : i ≤ 3) (hx0 : 0 ≤ x) (hx1 : x ≤ 1) :
    get_parameter (set_parameter p i x) i = x := by
  have hL : to_linear 24 ≠ 0 := ne_of_gt (to_linear_pos 24)
  have hi : i = 0 ∨ i = 1 ∨ i = 2 ∨ i = 3 := by omega
  rcases hi with h | h | h | h <;> subst h <;>
    simp [get_parameter, set_parameter] <;> field_simp

theorem get_set_roundtrip_witness :
    get_parameter (set_parameter ⟨1, 1, 1, 1⟩ 3 0) 3 = 0 :=
  get_set_roundtrip ⟨1, 1, 1, 1⟩ 3 0 (by decide) (by decide) le_rfl zero_le_one

/-- C10 (confirmed): the default parameter store holds
`clamp_threshold = linear(-12 dB)` (within `0.001` of `0.251`),
`lose_precision = 1`, `mix = 1` and `gain = linear(0 dB) = 1`; in
particular the stored precision-reduction toggle `1` exceeds the `0.5`
activation threshold. -/
theorem default_params_values :
    |defaultParams.clamp_threshold - 251 / 1000| < 1 / 1000 ∧
    defaultParams.lose_precision = 1 ∧ defaultParams.mix = 1 ∧
    defaultParams.gain = 1 ∧ (1 : ℝ) / 2 < defaultParams.lose_precision := by
  have h10 : (0 : ℝ) ≤ 10 := by norm_num
  refine ⟨?_, rfl, rfl, ?_, ?_⟩
  · set y : ℝ := (10 : ℝ) ^ ((3 : ℝ) / 5) with hy
    have hy_pos : 0 < y := Real.rpow_pos_of_pos (by norm_num) _
    have key : y ^ (5 : ℕ) = 1000 := by
      rw [hy, ← Real.rpow_natCast ((10 : ℝ) ^ ((3 : ℝ) / 5)) 5, ← Real.rpow_mul h10]
      norm_num
    have hy_lt : y < 4 := by
      by_contra hcon
      push_neg at hcon
      have h4 : (4 : ℝ) ^ (5 : ℕ) ≤ y ^ (5 : ℕ) := pow_le_pow_left₀ (by norm_num) hcon 5
      rw [key] at h4
      norm_num at h4
    have hy_gt : (3969 / 1000 : ℝ) < y := by
      by_contra hcon
      push_neg at hcon
      have h4 : y ^ (5 : ℕ) ≤ ((3969 : ℝ) / 1000) ^ (5 : ℕ) := pow_le_pow_left₀ hy_pos.le hcon 5
      rw [key] at h4
      norm_num at h4
    have hval : defaultParams.clamp_threshold = y⁻¹ := by
      show to_linear (-12) = y⁻¹
      rw [to_linear, show ((-12 : ℝ) / 20) = -((3 : ℝ) / 5) by norm_num,
        Real.rpow_neg h10, hy]
    rw [hval]
    have hinv_lt : y⁻¹ < (3969 / 1000 : ℝ)⁻¹ := (inv_lt_inv₀ hy_pos (by norm_num)).mpr hy_gt
    have hinv_gt : (4 : ℝ)⁻¹ < y⁻¹ := (inv_lt_inv₀ (by norm_num) hy_pos).mpr hy_lt
    rw [abs_lt]
    constructor <;> [linarith [hinv_gt]; nlinarith [hinv_lt]]
  · show to_linear 0 = 1
    rw [to_linear]
    norm_num
  · show (1 : ℝ) / 2 < 1
    norm_num
